import Mathlib

/-!
Verification of the generation pipeline in `app/src/main/cpp/llama_jni.cpp`.

The C++ file drives a llama.cpp backend over JNI: it tokenizes a prompt,
prefills the context in chunks of at most 256 tokens, samples tokens through
sampler chains, stops on terminal tokens, normalizes SentencePiece fragments,
and either returns the accumulated text (`llamaGenerate`) or pushes fragments
to a Java callback (`llamaGenerateStream`).

The backend (llama.cpp) is external: its fallible operations are modelled as
oracles (`Backend`, `Vocab`, `StreamOracle`) indexed by call count, so that
every concrete run of the C++ code corresponds to some oracle.  Text is
modelled at the byte level (`List Nat`), matching C++ `std::string`.
-/

namespace LlamaJni

/-- Byte strings: C++ `std::string` modelled as a list of byte values. -/
abbrev Bytes := List Nat

/-- UTF-8 bytes of the SentencePiece word-boundary marker `"▁"` (U+2581),
the three-byte sequence the C++ code compares against with
`t == "▁"` and `t.substr(0, 3) == "▁"`. -/
def MARKER : Bytes := [226, 150, 129]

/-- C `isspace` in the default locale on a byte (llama_jni.cpp line 302 uses
`std::isspace((unsigned char)c)`): space, tab, newline, vertical tab,
form feed, carriage return. -/
def is_space_byte (c : Nat) : Bool :=
  c == 32 || c == 9 || c == 10 || c == 11 || c == 12 || c == 13

/-- Token-fragment normalization (llama_jni.cpp lines 278-281 and 428-430):
`if (t == "▁") t = " "; else if (t.size() >= 3 && t.substr(0,3) == "▁")
t = " " + t.substr(3);`. -/
def normalize_fragment (t : Bytes) : Bytes :=
  if t = MARKER then [32]
  else if 3 ≤ t.length ∧ t.take 3 = MARKER then 32 :: t.drop 3
  else t

/-- Trailing-whitespace strip (llama_jni.cpp line 302):
`while (!output.empty() && std::isspace((unsigned char)output.back()))
output.pop_back();`. -/
def rstrip (s : Bytes) : Bytes := (s.reverse.dropWhile is_space_byte).reverse

/-- One element of a `llama_batch` as filled by the C++ code: token id,
position, `n_seq_id` (always 1), `seq_id[0]` (always 0) and the
logits/output-request flag (`int8_t`, set to 1 or 0). -/
structure BatchElem where
  token : Int
  pos : Nat
  n_seq_id : Nat
  seq_id : Int
  logits : Nat
  deriving DecidableEq, Repr

/-- Chunk capacity: `const int n_batch = 256;` (llama_jni.cpp lines 196, 332). -/
def n_batch : Nat := 256

/-- The batch element built for absolute position `p` of a prefill over
`ntok` tokens (llama_jni.cpp lines 202-209 / 341-348): token `tokens[p]`,
position `p`, `n_seq_id = 1`, `seq_id[0] = 0`, and logits flag
`(p == ntok - 1) ? 1 : 0`. -/
def elemAt (tokens : List Int) (ntok p : Nat) : BatchElem :=
  ⟨tokens.getD p 0, p, 1, 0, if p = ntok - 1 then 1 else 0⟩

/-- One prefill chunk starting at absolute position `cur`, of `nb` elements. -/
def mkChunk (tokens : List Int) (ntok cur nb : Nat) : List BatchElem :=
  (List.range nb).map (fun i => elemAt tokens ntok (cur + i))

/-- The chunking loop `for (cur = 0; cur < ntok; cur += nb)` with
`nb = min(n_batch, ntok - cur)` (llama_jni.cpp lines 199-219 / 338-358),
written with explicit fuel (each iteration advances `cur` by at least 1,
so `ntok` iterations always suffice). -/
def prefillChunksAux (tokens : List Int) (ntok : Nat) : Nat → Nat → List (List BatchElem)
  | _, 0 => []
  | cur, fuel + 1 =>
    if cur < ntok then
      mkChunk tokens ntok cur (min n_batch (ntok - cur)) ::
        prefillChunksAux tokens ntok (cur + min n_batch (ntok - cur)) fuel
    else []

/-- The sequence of chunks fed to the backend during prefill, for both
`llamaGenerate` and `llamaGenerateStream` (their prefill loops are
identical). -/
def prefillChunks (tokens : List Int) : List (List BatchElem) :=
  prefillChunksAux tokens tokens.length 0 tokens.length

/-- One stage of a `llama_sampler_chain`, as added by
`llama_sampler_chain_add` in the C++ code.  Float parameters are modelled
as rationals. -/
inductive SamplerStage where
  | penalties : Nat → ℚ → ℚ → ℚ → SamplerStage
  | top_k : Nat → SamplerStage
  | top_p : ℚ → Nat → SamplerStage
  | temp : ℚ → SamplerStage
  | dist : Nat → SamplerStage
  deriving DecidableEq, Repr

/-- `#define LLAMA_DEFAULT_SEED 0xFFFFFFFF` from llama.h. -/
def LLAMA_DEFAULT_SEED : Nat := 4294967295

/-- Steady-state chain of `llamaGenerate` (llama_jni.cpp lines 223-229):
penalties(64, 1.1, 0, 0), top_k(30), top_p(0.9, 1), temp(0.7), dist. -/
def generate_steady_chain : List SamplerStage :=
  [.penalties 64 (11/10) 0 0, .top_k 30, .top_p (9/10) 1, .temp (7/10),
    .dist LLAMA_DEFAULT_SEED]

/-- First-token chain of `llamaGenerate` (llama_jni.cpp lines 260-265):
same stages with a colder temperature 0.2. -/
def generate_first_chain : List SamplerStage :=
  [.penalties 64 (11/10) 0 0, .top_k 30, .top_p (9/10) 1, .temp (1/5),
    .dist LLAMA_DEFAULT_SEED]

/-- Steady-state chain of `llamaGenerateStream` (llama_jni.cpp lines
369-373): top_k(40), top_p(0.9, 1), temp(0.7), dist — no penalties stage. -/
def stream_steady_chain : List SamplerStage :=
  [.top_k 40, .top_p (9/10) 1, .temp (7/10), .dist LLAMA_DEFAULT_SEED]

/-- First-token chain of `llamaGenerateStream` (llama_jni.cpp lines
403-407): top_k(40), top_p(0.9, 1), temp(0.2), dist — no penalties stage. -/
def stream_first_chain : List SamplerStage :=
  [.top_k 40, .top_p (9/10) 1, .temp (1/5), .dist LLAMA_DEFAULT_SEED]

/-- The canonical stage order used by the spec: penalties (0), top-k (1),
top-p (2), temperature (3), final draw (4). -/
def stageKind : SamplerStage → Nat
  | .penalties _ _ _ _ => 0
  | .top_k _ => 1
  | .top_p _ _ => 2
  | .temp _ => 3
  | .dist _ => 4

/-- `should_stop_generation` (llama_jni.cpp lines 54-64): token-id
comparisons against EOS, EOT (if present), `<|im_end|>` (if present), then
the backend `llama_vocab_is_eog` flag.  It takes no text argument. -/
def should_stop_generation (tok tok_eos tok_im_end tok_eot : Int)
    (is_eog : Int → Bool) : Bool :=
  if tok == tok_eos then true
  else if tok_eot != -1 && tok == tok_eot then true
  else if tok_im_end != -1 && tok == tok_im_end then true
  else if is_eog tok then true
  else false

/-- The full per-token stop condition of both decode loops
(llama_jni.cpp lines 272 and 423): `should_stop_generation(...) ||
(tok_gemma_eot != -1 && next == tok_gemma_eot)`. -/
def loop_stop (tok_eos tok_im_end tok_eot tok_gemma : Int)
    (is_eog : Int → Bool) (tok : Int) : Bool :=
  should_stop_generation tok tok_eos tok_im_end tok_eot is_eog ||
    (tok_gemma != -1 && tok == tok_gemma)

/-- Resolution of a marker string to a single token (llama_jni.cpp lines
236-249 / 380-394): the token is used only when tokenizing the marker
yields exactly one token, otherwise the sentinel -1 is kept. -/
def resolve_single (raw : List Int) : Int :=
  match raw with
  | [t] => t
  | _ => -1

/-- Vocabulary oracle: EOS and EOT ids (`llama_vocab_eos` /
`llama_vocab_eot`, -1 when absent), the token lists produced by tokenizing
`"<|im_end|>"` and `"<end_of_turn>"`, the `llama_vocab_is_eog` flag, and
`llama_vocab_get_text` (`none` models a NULL result). -/
structure Vocab where
  tok_eos : Int
  tok_eot : Int
  im_end_raw : List Int
  gemma_raw : List Int
  is_eog : Int → Bool
  get_text : Int → Option Bytes

/-- Backend oracle: `tokenize_with_specials` result for a prompt (the empty
list models failure, matching the C++ which clears the vector on error),
success of the `d`-th `llama_decode` call, and the token returned by the
`k`-th `llama_sampler_sample` call. -/
structure Backend where
  tokenize : Bytes → List Int
  decodeOk : Nat → Bool
  sample : Nat → Int

/-- Consumer oracle for `llamaGenerateStream`.  The Java callback is
resolved with signature `(Ljava/lang/String;)V` and invoked with
`CallVoidMethod` (llama_jni.cpp lines 364, 434), so no return value
crosses the JNI boundary: `cbReturn` records the continue/stop decision the
consumer would have returned, and the code below never consults it.
`cbThrows` records whether the `c`-th callback invocation raised a Java
exception (checked with `ExceptionCheck`, line 436). -/
structure StreamOracle where
  cbReturn : Nat → Bool
  cbThrows : Nat → Bool

/-- Observable backend interaction of one generation call. -/
inductive BEvent where
  | kvClear : BEvent
  | tokenizeEv : Bytes → BEvent
  | decodeEv : List BatchElem → BEvent
  | sampleEv : List SamplerStage → Int → BEvent
  | emitEv : Bytes → BEvent
  deriving DecidableEq, Repr

/-- Whether an event is a `llama_decode` call. -/
def isDecodeEv : BEvent → Bool
  | .decodeEv _ => true
  | _ => false

/-- The prefill decode loop body: submit each chunk in order; on the first
failed `llama_decode` stop immediately (the C++ returns `""` / returns from
the stream call).  Yields the decode events, the overall success flag, and
the next decode-call index. -/
def prefillDecode (B : Backend) : List (List BatchElem) → Nat →
    (List BEvent × Bool × Nat)
  | [], d => ([], true, d)
  | c :: rest, d =>
    if B.decodeOk d then
      let r := prefillDecode B rest (d + 1)
      (BEvent.decodeEv c :: r.1, r.2.1, r.2.2)
    else ([BEvent.decodeEv c], false, d + 1)

/-- The stop condition of a generation call with the stop tokens resolved
from the vocabulary exactly as the C++ does (lines 232-249 / 376-394). -/
def gen_stop (V : Vocab) (tok : Int) : Bool :=
  loop_stop V.tok_eos (resolve_single V.im_end_raw) V.tok_eot
    (resolve_single V.gemma_raw) V.is_eog tok

/-- Decode loop of `llamaGenerate` (llama_jni.cpp lines 257-295).  Arguments:
fuel (`maxTokens` iterations), sample-call index `k`, decode-call index `d`,
position cursor `n_cur`, and the `first` flag selecting the colder
first-token chain.  Per iteration: sample; stop check (token discarded on
stop); fragment lookup (`break` on NULL); normalize and append; feed the
token back as a single-element batch with logits flag 1; `break` on decode
failure (the appended text is kept, matching `output += t` before
`llama_decode`).  Returns the text produced from this point on and the
backend events. -/
def genLoop (B : Backend) (V : Vocab) :
    Nat → Nat → Nat → Nat → Bool → (Bytes × List BEvent)
  | 0, _, _, _, _ => ([], [])
  | fuel + 1, k, d, n_cur, first =>
    let chain := if first then generate_first_chain else generate_steady_chain
    let next := B.sample k
    if gen_stop V next then ([], [.sampleEv chain next])
    else
      match V.get_text next with
      | none => ([], [.sampleEv chain next])
      | some piece =>
        let t := normalize_fragment piece
        let b : List BatchElem := [⟨next, n_cur, 1, 0, 1⟩]
        if B.decodeOk d then
          let r := genLoop B V fuel (k + 1) (d + 1) (n_cur + 1) false
          (t ++ r.1, .sampleEv chain next :: .decodeEv b :: r.2)
        else (t, [.sampleEv chain next, .decodeEv b])

/-- Body of `llamaGenerate` after the KV clear and tokenization: empty token
list returns `""` immediately (line 188-191); a prefill decode failure
returns `""` (lines 213-217); otherwise the decode loop runs with the
position cursor starting at `ntok`. -/
def generateBody (B : Backend) (V : Vocab) (prompt : Bytes) (maxTokens : Nat) :
    (Bytes × List BEvent) :=
  let tokens := B.tokenize prompt
  if tokens = [] then ([], [])
  else
    let pd := prefillDecode B (prefillChunks tokens) 0
    if pd.2.1 then
      let r := genLoop B V maxTokens 0 pd.2.2 tokens.length true
      (r.1, pd.1 ++ r.2)
    else ([], pd.1)

/-- Result of `llamaGenerate`: the returned string (`ret`), the accumulated
text before the trailing-whitespace strip (`raw`), and the backend events.
All paths modelled here return a string normally; the C++ throws only on a
NULL context/prompt/model/vocab, before any of the modelled work. -/
structure GenOut where
  ret : Bytes
  raw : Bytes
  events : List BEvent

/-- `Java_edu_upt_assistant_LlamaNative_llamaGenerate` (llama_jni.cpp lines
151-304): clears the KV cache first (line 160), tokenizes, prefills, runs
the decode loop, and strips trailing whitespace before returning
(line 302). -/
def generate (B : Backend) (V : Vocab) (prompt : Bytes) (maxTokens : Nat) :
    GenOut :=
  let r := generateBody B V prompt maxTokens
  ⟨rstrip r.1, r.1, .kvClear :: .tokenizeEv prompt :: r.2⟩

/-- Decode loop of `llamaGenerateStream` (llama_jni.cpp lines 400-451).
Differences from `genLoop`: the chains have no penalties stage, and each
normalized fragment is pushed to the Java callback before the feedback
decode; if the callback raised an exception the loop breaks (line 436) with
the fragment already delivered and no further decode. -/
def streamLoop (B : Backend) (V : Vocab) (S : StreamOracle) :
    Nat → Nat → Nat → Nat → Nat → Bool → (List Bytes × List BEvent)
  | 0, _, _, _, _, _ => ([], [])
  | fuel + 1, k, c, d, n_cur, first =>
    let chain := if first then stream_first_chain else stream_steady_chain
    let next := B.sample k
    if gen_stop V next then ([], [.sampleEv chain next])
    else
      match V.get_text next with
      | none => ([], [.sampleEv chain next])
      | some piece =>
        let t := normalize_fragment piece
        if S.cbThrows c then ([t], [.sampleEv chain next, .emitEv t])
        else
          let b : List BatchElem := [⟨next, n_cur, 1, 0, 1⟩]
          if B.decodeOk d then
            let r := streamLoop B V S fuel (k + 1) (c + 1) (d + 1) (n_cur + 1)
              false
            (t :: r.1, .sampleEv chain next :: .emitEv t :: .decodeEv b :: r.2)
          else ([t], [.sampleEv chain next, .emitEv t, .decodeEv b])

/-- Body of `llamaGenerateStream` after the KV clear and tokenization
(empty token list and prefill failure both return with nothing emitted,
lines 328 and 352-356). -/
def streamBody (B : Backend) (V : Vocab) (S : StreamOracle) (prompt : Bytes)
    (maxTokens : Nat) : (List Bytes × List BEvent) :=
  let tokens := B.tokenize prompt
  if tokens = [] then ([], [])
  else
    let pd := prefillDecode B (prefillChunks tokens) 0
    if pd.2.1 then
      let r := streamLoop B V S maxTokens 0 0 pd.2.2 tokens.length true
      (r.1, pd.1 ++ r.2)
    else ([], pd.1)

/-- Result of `llamaGenerateStream`: the fragments delivered to the
callback, in order, and the backend events. -/
structure StreamOut where
  emitted : List Bytes
  events : List BEvent

/-- `Java_edu_upt_assistant_LlamaNative_llamaGenerateStream` (llama_jni.cpp
lines 309-457): clears the KV cache first (line 315), tokenizes, prefills,
then streams fragments from the decode loop. -/
def generateStream (B : Backend) (V : Vocab) (S : StreamOracle)
    (prompt : Bytes) (maxTokens : Nat) : StreamOut :=
  let r := streamBody B V S prompt maxTokens
  ⟨r.1, .kvClear :: .tokenizeEv prompt :: r.2⟩

/-- Thread-count computation of `llamaCreate` (llama_jni.cpp lines 100-101):
`int threads = (nThreads > 0 ? nThreads : 8);
threads = std::max(6, std::min(threads, 8));`.  No hardware-concurrency
query appears anywhere in the file. -/
def clampThreads (nThreads : Int) : Int :=
  max 6 (min (if nThreads > 0 then nThreads else 8) 8)

/-- Spec-side definition, following the claim's words only (for comparison
with `clampThreads`; the code has no counterpart): with `threadHint`
unspecified (non-positive) the thread count defaults to the machine's
hardware concurrency `hw`. -/
def spec_default_threads (hw : Int) : Int := hw

/-- Byte string of the user-role marker `"User:"` named by the spec's
post-processing description. -/
def USER_MARKER : Bytes := [85, 115, 101, 114, 58]

/-- Spec-side definition, following the claim's words only (for comparison
with `generate`; the code has no counterpart): truncate the suffix starting
at the first occurrence of `marker`. -/
def truncAt (marker : Bytes) : Bytes → Bytes
  | [] => []
  | c :: r => if (c :: r).take marker.length = marker then []
    else c :: truncAt marker r

/-- Spec-side definition, following the claim's words only: the claimed
two-step post-processing of `llamaGenerate` — truncate at a detected
user-role marker, then strip trailing whitespace. -/
def spec_postprocess (s : Bytes) : Bytes := rstrip (truncAt USER_MARKER s)

/-- Oracle of a run whose sampled token 5 is never terminal and always
decodes to a single newline byte; tokenization yields one token and every
decode succeeds. -/
def newlineBackend : Backend := ⟨fun _ => [1], fun _ => true, fun _ => 5⟩

/-- Vocabulary for the newline run: EOS id 0, no EOT, neither marker string
collapses to one token, `is_eog` always false, every fragment is `"\n"`. -/
def newlineVocab : Vocab := ⟨0, -1, [], [], fun _ => false, fun _ => some [10]⟩

/-- Consumer for the newline run: would always continue, never throws. -/
def newlineStreamOracle : StreamOracle := ⟨fun _ => true, fun _ => false⟩

/-- Oracle of a run whose consumer returns the stop decision `false` at its
3rd invocation (index 2) but never throws; fragments are `"a"`. -/
def ignoredCbBackend : Backend := ⟨fun _ => [1], fun _ => true, fun _ => 5⟩

/-- Vocabulary for the ignored-callback run. -/
def ignoredCbVocab : Vocab :=
  ⟨0, -1, [], [], fun _ => false, fun _ => some [97]⟩

/-- The consumer's would-be decision: continue on every call except the 3rd
(index 2), where it signals stop; it never raises an exception. -/
def ignoredCbOracle : StreamOracle := ⟨fun i => !(i == 2), fun _ => false⟩

/-- Oracle of a run whose consumer raises a Java exception at its 3rd
invocation (index 2); fragments are `"b"`. -/
def faultBackend : Backend := ⟨fun _ => [7], fun _ => true, fun _ => 9⟩

/-- Vocabulary for the faulting-callback run. -/
def faultVocab : Vocab := ⟨0, -1, [], [], fun _ => false, fun _ => some [98]⟩

/-- Consumer that raises an exception exactly at call index 2. -/
def faultOracle : StreamOracle := ⟨fun _ => true, fun i => i == 2⟩

/-- Backend whose tokenization produces no tokens (tokenization failure). -/
def emptyTokBackend : Backend := ⟨fun _ => [], fun _ => true, fun _ => 0⟩

/-- A vocabulary with no special tokens and no fragments. -/
def trivialVocab : Vocab := ⟨0, -1, [], [], fun _ => false, fun _ => none⟩

/-- Oracle of a run that samples tokens 10, 11, 12 whose fragments spell
`"Hi"`, `"\nUser:"`, `" there"`; no token is terminal, all decodes
succeed. -/
def markerBackend : Backend :=
  ⟨fun _ => [1], fun _ => true,
    fun k => if k == 0 then 10 else if k == 1 then 11 else 12⟩

/-- Vocabulary for the marker run. -/
def markerVocab : Vocab :=
  ⟨-2, -1, [], [], fun _ => false,
    fun t => if t == 10 then some [72, 105]
      else if t == 11 then some [10, 85, 115, 101, 114, 58]
      else some [32, 116, 104, 101, 114, 101]⟩

/-- The flattened prefill loop: for enough fuel, the chunks starting at
`cur` concatenate to the elements at absolute positions `cur, cur+1, …,
ntok-1`. -/
lemma prefillChunksAux_flatten (tokens : List Int) (ntok : Nat) :
    ∀ fuel cur, ntok - cur ≤ fuel →
      (prefillChunksAux tokens ntok cur fuel).flatten
        = (List.range (ntok - cur)).map (fun i => elemAt tokens ntok (cur + i)) := by
  intro fuel
  induction fuel with
  | zero =>
    intro cur h
    have h0 : ntok - cur = 0 := Nat.le_zero.mp h
    simp [prefillChunksAux, h0]
  | succ fuel ih =>
    intro cur h
    by_cases hc : cur < ntok
    · set nb := min n_batch (ntok - cur) with hnbdef
      have hnb1 : 1 ≤ nb := by rw [hnbdef]; simp only [n_batch]; omega
      have hnble : nb ≤ ntok - cur := Nat.min_le_right _ _
      have hsplit : ntok - cur = nb + (ntok - cur - nb) := by omega
      have hih := ih (cur + nb) (by omega)
      have harg : ntok - (cur + nb) = ntok - cur - nb := by omega
      rw [harg] at hih
      simp only [prefillChunksAux, hc, if_true, List.flatten_cons, ← hnbdef, hih]
      conv_rhs => rw [hsplit, List.range_add]
      rw [List.map_append, List.map_map]
      refine congrArg₂ (· ++ ·) rfl ?_
      apply List.map_congr_left
      intro i _
      simp only [Function.comp]
      congr 1
      omega
    · have h0 : ntok - cur = 0 := by omega
      simp [prefillChunksAux, hc, h0]

/-- The concatenation of all prefill chunks is the element sequence at
positions `0, …, ntok-1`. -/
lemma prefillChunks_flatten (tokens : List Int) :
    (prefillChunks tokens).flatten
      = (List.range tokens.length).map (fun i => elemAt tokens tokens.length i) := by
  have h := prefillChunksAux_flatten tokens tokens.length tokens.length 0 (by omega)
  simpa using h

/-- Reading every index of a list through `getD` reproduces the list. -/
lemma map_getD_range (l : List Int) :
    (List.range l.length).map (fun i => l.getD i 0) = l := by
  apply List.ext_getElem
  · simp
  · intro i h1 h2
    simp only [List.getElem_map, List.getElem_range]
    exact List.getD_eq_getElem l 0 h2

/-- Every chunk produced by the prefill loop is nonempty and within the
batch capacity. -/
lemma prefillChunksAux_sizes (tokens : List Int) (ntok : Nat) :
    ∀ fuel cur, (prefillChunksAux tokens ntok cur fuel).all
      (fun c => decide (0 < c.length) && decide (c.length ≤ n_batch)) = true := by
  intro fuel
  induction fuel with
  | zero => intro cur; simp [prefillChunksAux]
  | succ fuel ih =>
    intro cur
    by_cases hc : cur < ntok
    · simp only [prefillChunksAux, hc, if_true, List.all_cons, ih, Bool.and_true]
      simp only [mkChunk, List.length_map, List.length_range, Bool.and_eq_true,
        decide_eq_true_eq]
      simp only [n_batch]
      omega
    · simp [prefillChunksAux, hc]

/-- Filtering `List.range n` for the single index `n - 1`. -/
lemma range_filter_last (n : Nat) (h : 0 < n) :
    (List.range n).filter (fun i => decide (i = n - 1)) = [n - 1] := by
  obtain ⟨m, rfl⟩ : ∃ m, n = m + 1 := ⟨n - 1, by omega⟩
  rw [List.range_succ m, List.filter_append]
  have h1 : (List.range m).filter (fun i => decide (i = m + 1 - 1)) = [] := by
    apply List.filter_eq_nil_iff.mpr
    intro a ha
    have : a < m := List.mem_range.mp ha
    simp; omega
  rw [h1]
  simp

/-- When every decode succeeds, the prefill loop succeeds, performs one
decode per chunk, and its events are exactly the chunk submissions. -/
lemma prefillDecode_ok (B : Backend) (hdec : ∀ j, B.decodeOk j = true) :
    ∀ chunks d, (prefillDecode B chunks d).2.1 = true
      ∧ (prefillDecode B chunks d).2.2 = d + chunks.length
      ∧ (prefillDecode B chunks d).1 = chunks.map BEvent.decodeEv := by
  intro chunks
  induction chunks with
  | nil => intro d; simp [prefillDecode]
  | cons c rest ih =>
    intro d
    have hi := ih (d + 1)
    simp only [prefillDecode, hdec d, if_true, List.length_cons, List.map_cons]
    refine ⟨hi.1, ?_, ?_⟩
    · rw [hi.2.1]; omega
    · rw [hi.2.2]

/-- When the generation never stops (no terminal token, fragments always
present, decodes always succeed), the decode loop of `llamaGenerate` runs
for its whole fuel and accumulates exactly the normalized fragments of the
sampled tokens, regardless of what the accumulated text contains. -/
lemma genLoop_full (B : Backend) (V : Vocab) (fr : Int → Bytes)
    (hstop : ∀ k, gen_stop V (B.sample k) = false)
    (htext : ∀ t, V.get_text t = some (fr t))
    (hdec : ∀ j, B.decodeOk j = true) :
    ∀ fuel k d n first,
      (genLoop B V fuel k d n first).1
        = ((List.range fuel).map
            (fun i => normalize_fragment (fr (B.sample (k + i))))).flatten := by
  intro fuel
  induction fuel with
  | zero => intro k d n first; simp [genLoop]
  | succ fuel ih =>
    intro k d n first
    simp only [genLoop, hstop k, htext (B.sample k), hdec d, if_true,
      Bool.false_eq_true, if_false]
    rw [ih (k + 1) (d + 1) (n + 1) false]
    rw [List.range_succ_eq_map, List.map_cons, List.flatten_cons, List.map_map]
    refine congrArg₂ (· ++ ·) ?_ ?_
    · simp
    · refine congrArg List.flatten ?_
      apply List.map_congr_left
      intro i _
      have harg : k + 1 + i = k + Nat.succ i := by omega
      simp [Function.comp, harg]

/-- When the consumer's first exception is at its `j`-th call (0-based) and
nothing else stops the loop, the stream loop delivers exactly `j + 1`
fragments and performs exactly `j` feedback decodes. -/
lemma streamLoop_throw (B : Backend) (V : Vocab) (S : StreamOracle)
    (fr : Int → Bytes)
    (hstop : ∀ k, gen_stop V (B.sample k) = false)
    (htext : ∀ t, V.get_text t = some (fr t))
    (hdec : ∀ j, B.decodeOk j = true) :
    ∀ fuel j k c d n first, j < fuel →
      (∀ i, i < j → S.cbThrows (c + i) = false) →
      S.cbThrows (c + j) = true →
      (streamLoop B V S fuel k c d n first).1.length = j + 1
        ∧ (streamLoop B V S fuel k c d n first).2.countP isDecodeEv = j := by
  intro fuel
  induction fuel with
  | zero => intro j k c d n first hj; omega
  | succ fuel ih =>
    intro j k c d n first hj hbefore hat
    cases j with
    | zero =>
      have hc : S.cbThrows c = true := by simpa using hat
      simp [streamLoop, hstop k, htext (B.sample k), hc, isDecodeEv,
        List.countP_cons]
    | succ jj =>
      have hc : S.cbThrows c = false := by
        have := hbefore 0 (by omega)
        simpa using this
      have hih := ih jj (k + 1) (c + 1) (d + 1) (n + 1) false (by omega)
        (fun i hi => by
          have := hbefore (i + 1) (by omega)
          have harg : c + (i + 1) = c + 1 + i := by omega
          rwa [harg] at this)
        (by
          have harg : c + (jj + 1) = c + 1 + jj := by omega
          rwa [harg] at hat)
      simp only [streamLoop, hstop k, htext (B.sample k), hc, hdec d, if_true,
        Bool.false_eq_true, if_false, List.length_cons, List.countP_cons]
      constructor
      · rw [hih.1]
      · rw [hih.2]; simp [isDecodeEv]

/-- A nonempty token sequence produces at least one prefill chunk. -/
lemma prefillChunks_ne_nil (tokens : List Int) (h : tokens ≠ []) :
    ∃ c rest, prefillChunks tokens = c :: rest := by
  have hlen : 0 < tokens.length := List.length_pos.mpr h
  obtain ⟨m, hm⟩ : ∃ m, tokens.length = m + 1 := ⟨tokens.length - 1, by omega⟩
  unfold prefillChunks
  rw [hm]
  simp only [prefillChunksAux]
  rw [if_pos (Nat.succ_pos m)]
  exact ⟨_, _, rfl⟩

/-- The first element a `dropWhile` keeps does not satisfy the test. -/
lemma dropWhile_head_false (p : Nat → Bool) :
    ∀ (l : List Nat) (h : l.dropWhile p ≠ []),
      p ((l.dropWhile p).head h) = false := by
  intro l
  induction l with
  | nil => intro h; simp at h
  | cons a t ih =>
    intro h
    by_cases ha : p a
    · simp only [List.dropWhile_cons, ha, if_true] at h ⊢
      exact ih h
    · have ha2 : p a = false := by simpa using ha
      simp [List.dropWhile_cons, ha2]

/-- `rstrip` removes exactly a maximal all-whitespace suffix: the input is
the output followed by whitespace bytes, and the output, when nonempty,
ends in a non-whitespace byte. -/
lemma rstrip_decomposition (s : Bytes) :
    ∃ ws, s = rstrip s ++ ws ∧ ws.all is_space_byte = true
      ∧ (rstrip s = []
          ∨ ∃ c l2, rstrip s = l2 ++ [c] ∧ is_space_byte c = false) := by
  refine ⟨(s.reverse.takeWhile is_space_byte).reverse, ?_, ?_, ?_⟩
  · have h1 : s.reverse.takeWhile is_space_byte ++ s.reverse.dropWhile is_space_byte
        = s.reverse := List.takeWhile_append_dropWhile is_space_byte s.reverse
    calc s = s.reverse.reverse := (List.reverse_reverse s).symm
      _ = (s.reverse.takeWhile is_space_byte
            ++ s.reverse.dropWhile is_space_byte).reverse := by rw [h1]
      _ = rstrip s ++ (s.reverse.takeWhile is_space_byte).reverse := by
          rw [List.reverse_append]; rfl
  · apply List.all_eq_true.mpr
    intro x hx
    have hx2 : x ∈ s.reverse.takeWhile is_space_byte := List.mem_reverse.mp hx
    exact List.mem_takeWhile_imp hx2
  · cases hdw : s.reverse.dropWhile is_space_byte with
    | nil => left; simp [rstrip, hdw]
    | cons h0 t0 =>
      right
      refine ⟨h0, t0.reverse, ?_, ?_⟩
      · simp [rstrip, hdw]
      · have hne : s.reverse.dropWhile is_space_byte ≠ [] := by simp [hdw]
        have := dropWhile_head_false is_space_byte s.reverse hne
        simpa [hdw] using this

/-- Claim C1: for a prompt tokenizing to `n` tokens, the prefill of both
`llamaGenerate` and `llamaGenerateStream` (their prefill loops are the
shared `prefillChunks`) feeds the backend position values exactly
`0..n-1`, strictly increasing and contiguous, with the tokens in original
order, in consecutive nonempty chunks each of length at most the chunk
capacity 256. -/
theorem prefill_positions_exact (tokens : List Int) :
    ((prefillChunks tokens).flatten.map (fun e => e.pos)
        = List.range tokens.length)
    ∧ ((prefillChunks tokens).flatten.map (fun e => e.token) = tokens)
    ∧ ((prefillChunks tokens).all
        (fun c => decide (0 < c.length) && decide (c.length ≤ n_batch))
          = true) := by
  refine ⟨?_, ?_, prefillChunksAux_sizes tokens tokens.length tokens.length 0⟩
  · rw [prefillChunks_flatten, List.map_map]
    have hf : ((fun e : BatchElem => e.pos)
        ∘ fun i => elemAt tokens tokens.length i) = fun i => i := by
      funext i; rfl
    rw [hf]
    exact List.map_id' _
  · rw [prefillChunks_flatten, List.map_map]
    have hf : ((fun e : BatchElem => e.token)
        ∘ fun i => elemAt tokens tokens.length i)
        = fun i => tokens.getD i 0 := by
      funext i; rfl
    rw [hf]
    exact map_getD_range tokens

/-- Claim C2: during prefill of a nonempty token sequence, exactly one batch
element requests output — the element at position `n - 1`, the globally
last token — and every other element's logits flag is 0. -/
theorem prefill_logits_last_only (tokens : List Int) (h : tokens ≠ []) :
    (((prefillChunks tokens).flatten.filter (fun e => e.logits == 1)).map
        (fun e => e.pos) = [tokens.length - 1])
    ∧ ((prefillChunks tokens).flatten.all
        (fun e => e.logits == if e.pos == tokens.length - 1 then 1 else 0)
          = true) := by
  have hlen : 0 < tokens.length := List.length_pos.mpr h
  constructor
  · rw [prefillChunks_flatten, List.filter_map]
    have hp : ((fun e : BatchElem => e.logits == 1)
        ∘ fun i => elemAt tokens tokens.length i)
        = fun i => decide (i = tokens.length - 1) := by
      funext i
      by_cases hi : i = tokens.length - 1 <;> simp [Function.comp, elemAt, hi]
    rw [hp, range_filter_last tokens.length hlen]
    rfl
  · rw [prefillChunks_flatten]
    apply List.all_eq_true.mpr
    intro x hx
    obtain ⟨i, hi, rfl⟩ := List.mem_map.mp hx
    by_cases hieq : i = tokens.length - 1 <;> simp [elemAt, hieq]

/-- Claim C2, witnessed at the concrete token sequence `[1, 2, 3]`. -/
theorem prefill_logits_last_only_witness :
    (((prefillChunks ([1, 2, 3] : List Int)).flatten.filter
        (fun e => e.logits == 1)).map (fun e => e.pos)
      = [([1, 2, 3] : List Int).length - 1])
    ∧ ((prefillChunks ([1, 2, 3] : List Int)).flatten.all
        (fun e => e.logits
          == if e.pos == ([1, 2, 3] : List Int).length - 1 then 1 else 0)
          = true) :=
  prefill_logits_last_only [1, 2, 3] (by decide)

/-- Claim C3 counterexample: both sampler chains of `llamaGenerateStream`
contain no repetition-penalty stage at all while containing truncation
stages, so not every chain used by a generation call applies a repetition
penalty before truncation. -/
theorem stream_chains_lack_penalty :
    (stream_steady_chain.any (fun s => stageKind s == 0) = false)
    ∧ (stream_first_chain.any (fun s => stageKind s == 0) = false)
    ∧ (stream_steady_chain.any
        (fun s => stageKind s == 1 || stageKind s == 2) = true) := by decide

/-- Claim C3 amended: in `llamaGenerate` both chains apply repetition
penalty, top-k, top-p, temperature, then the categorical draw, in that
order; in `llamaGenerateStream` both chains omit the penalty stage and
apply top-k, top-p, temperature, then the draw, in that order. -/
theorem sampler_chain_stage_order :
    (generate_steady_chain.map stageKind = [0, 1, 2, 3, 4])
    ∧ (generate_first_chain.map stageKind = [0, 1, 2, 3, 4])
    ∧ (stream_steady_chain.map stageKind = [1, 2, 3, 4])
    ∧ (stream_first_chain.map stageKind = [1, 2, 3, 4]) := by decide

/-- Claim C4 counterexample: with every sampled token non-terminal and every
fragment a newline byte, `llamaGenerateStream` with budget 6 emits all six
newline fragments: after the 4th emission the accumulated text already
holds 4 newlines (exceeding 3), yet the 5th and 6th tokens are still
evaluated and emitted — no textual newline heuristic stops generation. -/
theorem no_newline_stop_heuristic :
    (generateStream newlineBackend newlineVocab newlineStreamOracle
        [104] 6).emitted
      = [[10], [10], [10], [10], [10], [10]] := by decide

/-- Claim C4 amended: the stop decision is purely token-based
(`should_stop_generation` plus the Gemma end-of-turn check) and takes no
text argument: whenever no sampled token triggers it, every fragment
resolves and every decode succeeds, `llamaGenerate` accumulates all
`maxTokens` normalized fragments, regardless of role markers or newline
counts in the accumulated text. -/
theorem stop_decision_token_based (B : Backend) (V : Vocab) (prompt : Bytes)
    (m : Nat) (fr : Int → Bytes)
    (hstop : ∀ k, gen_stop V (B.sample k) = false)
    (htext : ∀ t, V.get_text t = some (fr t))
    (hdec : ∀ j, B.decodeOk j = true)
    (htok : B.tokenize prompt ≠ []) :
    (generate B V prompt m).raw
      = ((List.range m).map
          (fun i => normalize_fragment (fr (B.sample i)))).flatten := by
  have hpd := prefillDecode_ok B hdec (prefillChunks (B.tokenize prompt)) 0
  have hraw : (generate B V prompt m).raw = (generateBody B V prompt m).1 := rfl
  rw [hraw]
  simp only [generateBody, htok, if_false, hpd.1, if_true]
  rw [genLoop_full B V fr hstop htext hdec m 0 _ _ true]
  simp

/-- Claim C4 amended, witnessed on the concrete newline run: six sampled
non-terminal tokens accumulate six newline bytes. -/
theorem stop_decision_token_based_witness :
    (generate newlineBackend newlineVocab [104] 6).raw
      = [10, 10, 10, 10, 10, 10] := by
  have h := stop_decision_token_based newlineBackend newlineVocab [104] 6
    (fun _ => [10]) (fun k => rfl) (fun t => rfl) (fun j => rfl) (by decide)
  rw [h]
  decide

/-- Claim C5 counterexample: `onToken` is resolved with JNI signature
`(Ljava/lang/String;)V` and invoked through `CallVoidMethod`, so a
consumer's continue/stop return value never reaches the loop.  With a
consumer that returns the stop decision at its 3rd call (index 2) and
never throws, all 5 fragments are still delivered and all 6 decode calls
(1 prefill chunk + 5 feedback decodes) still occur — not 3 increments and
no 4th decode as the claim states. -/
theorem callback_return_value_ignored :
    ((generateStream ignoredCbBackend ignoredCbVocab ignoredCbOracle
        [104] 5).emitted.length = 5)
    ∧ ((generateStream ignoredCbBackend ignoredCbVocab ignoredCbOracle
        [104] 5).events.countP isDecodeEv = 6) := by decide

/-- Claim C5 amended: streaming cancellation is signalled by the callback
raising an exception, checked once per emitted token: if the consumer's
first exception is at its `j`-th call (0-based, `j < maxTokens`) and
nothing else stops the loop, exactly `j + 1` fragments are delivered (all
already-emitted text kept) and exactly `j` feedback decodes occur — total
decode calls are the prefill chunks plus `j`, so no decode follows the
faulting callback. -/
theorem stream_stops_on_callback_exception (B : Backend) (V : Vocab)
    (S : StreamOracle) (prompt : Bytes) (m : Nat) (fr : Int → Bytes) (j : Nat)
    (hstop : ∀ k, gen_stop V (B.sample k) = false)
    (htext : ∀ t, V.get_text t = some (fr t))
    (hdec : ∀ i, B.decodeOk i = true)
    (htok : B.tokenize prompt ≠ [])
    (hj : j < m)
    (hbefore : ∀ i, i < j → S.cbThrows i = false)
    (hat : S.cbThrows j = true) :
    ((generateStream B V S prompt m).emitted.length = j + 1)
    ∧ ((generateStream B V S prompt m).events.countP isDecodeEv
        = (prefillChunks (B.tokenize prompt)).length + j) := by
  have hpd := prefillDecode_ok B hdec (prefillChunks (B.tokenize prompt)) 0
  have hloop := streamLoop_throw B V S fr hstop htext hdec m j 0 0
    (prefillDecode B (prefillChunks (B.tokenize prompt)) 0).2.2
    (B.tokenize prompt).length true hj
    (fun i hi => by simpa using hbefore i hi)
    (by simpa using hat)
  constructor
  · have hemit : (generateStream B V S prompt m).emitted
        = (streamLoop B V S m 0 0
            (prefillDecode B (prefillChunks (B.tokenize prompt)) 0).2.2
            (B.tokenize prompt).length true).1 := by
      simp only [generateStream, streamBody, htok, if_false, hpd.1, if_true]
    rw [hemit, hloop.1]
  · have hev : (generateStream B V S prompt m).events
        = BEvent.kvClear :: BEvent.tokenizeEv prompt ::
          ((prefillDecode B (prefillChunks (B.tokenize prompt)) 0).1
            ++ (streamLoop B V S m 0 0
              (prefillDecode B (prefillChunks (B.tokenize prompt)) 0).2.2
              (B.tokenize prompt).length true).2) := by
      simp only [generateStream, streamBody, htok, if_false, hpd.1, if_true]
    rw [hev]
    simp only [List.countP_cons, List.countP_append, hloop.2, hpd.2.2]
    simp [isDecodeEv, List.countP_map, Function.comp]

/-- Claim C5 amended, witnessed on the faulting run: an exception at the 3rd
callback call delivers exactly 3 fragments and performs 3 decode calls in
total (1 prefill chunk + 2 feedback decodes). -/
theorem stream_stops_on_callback_exception_witness :
    ((generateStream faultBackend faultVocab faultOracle [104] 5).emitted.length
        = 3)
    ∧ ((generateStream faultBackend faultVocab faultOracle [104] 5).events.countP
        isDecodeEv = 3) := by
  have h := stream_stops_on_callback_exception faultBackend faultVocab
    faultOracle [104] 5 (fun _ => [98]) 2 (fun k => rfl) (fun t => rfl)
    (fun i => rfl) (by decide) (by omega) (by decide) rfl
  exact ⟨h.1, by rw [h.2]; decide⟩

/-- Claim C6: `llamaGenerate` returns the empty string — returning normally
rather than raising — both when tokenization of the prompt produces no
tokens (llama_jni.cpp lines 188-191) and when the first prefill decode
call fails (lines 213-217), for every prompt and budget. -/
theorem generate_empty_on_failure (B : Backend) (V : Vocab) (prompt : Bytes)
    (m : Nat)
    (h : B.tokenize prompt = []
      ∨ (B.tokenize prompt ≠ [] ∧ B.decodeOk 0 = false)) :
    (generate B V prompt m).ret = [] ∧ (generate B V prompt m).raw = [] := by
  rcases h with h1 | ⟨hne, hd0⟩
  · constructor <;> simp [generate, generateBody, h1, rstrip]
  · obtain ⟨c, rest, hchunks⟩ := prefillChunks_ne_nil _ hne
    constructor <;>
      simp [generate, generateBody, hne, hchunks, prefillDecode, hd0, rstrip]

/-- Claim C6, witnessed with a backend whose tokenization fails. -/
theorem generate_empty_on_failure_witness :
    (generate emptyTokBackend trivialVocab [104] 4).ret = [] :=
  (generate_empty_on_failure emptyTokBackend trivialVocab [104] 4 (Or.inl rfl)).1

/-- Claim C7 counterexample: on a run accumulating `"Hi\nUser: there"`,
`llamaGenerate` returns that text unchanged (its last byte is not
whitespace), while the claimed post-processing — truncate the suffix from
the user-role marker, then strip trailing whitespace — would return
`"Hi"`: the code performs no marker truncation. -/
theorem no_marker_truncation :
    ((generate markerBackend markerVocab [104] 3).ret
        = [72, 105, 10, 85, 115, 101, 114, 58, 32, 116, 104, 101, 114, 101])
    ∧ (spec_postprocess
        [72, 105, 10, 85, 115, 101, 114, 58, 32, 116, 104, 101, 114, 101]
        = [72, 105])
    ∧ (([72, 105, 10, 85, 115, 101, 114, 58, 32, 116, 104, 101, 114, 101]
        : Bytes) ≠ [72, 105]) := by decide

/-- Claim C7 amended: the only post-processing before `llamaGenerate`
returns is the trailing-whitespace strip: the returned string is the
accumulated text minus a maximal all-whitespace suffix (in particular any
role-marker text in the interior survives), and when nonempty it ends in a
non-whitespace byte. -/
theorem generate_ret_strips_trailing_ws (B : Backend) (V : Vocab)
    (prompt : Bytes) (m : Nat) :
    ∃ ws, (generate B V prompt m).raw = (generate B V prompt m).ret ++ ws
      ∧ ws.all is_space_byte = true
      ∧ ((generate B V prompt m).ret = []
          ∨ ∃ c l2, (generate B V prompt m).ret = l2 ++ [c]
              ∧ is_space_byte c = false) := by
  have hret : (generate B V prompt m).ret
      = rstrip ((generate B V prompt m).raw) := rfl
  rw [hret]
  exact rstrip_decomposition _

/-- Claim C8: fragment normalization maps the exact word-boundary marker to
a single space, a fragment whose first bytes are the marker to a space
followed by the remainder, and every other fragment to itself. -/
theorem normalize_fragment_cases :
    (normalize_fragment MARKER = [32])
    ∧ (∀ rest : Bytes, normalize_fragment (MARKER ++ rest) = 32 :: rest)
    ∧ (∀ t : Bytes, t.take 3 ≠ MARKER → normalize_fragment t = t) := by
  refine ⟨rfl, ?_, ?_⟩
  · intro rest
    cases rest with
    | nil => rfl
    | cons b bs =>
      have h1 : MARKER ++ b :: bs ≠ MARKER := by
        intro heq
        have h2 := congrArg List.length heq
        simp [MARKER] at h2
      have h3 : 3 ≤ (MARKER ++ b :: bs).length
          ∧ (MARKER ++ b :: bs).take 3 = MARKER :=
        ⟨by simp [MARKER], rfl⟩
      unfold normalize_fragment
      rw [if_neg h1, if_pos h3]
      rfl
  · intro t ht
    have h1 : t ≠ MARKER := by
      intro heq
      apply ht
      rw [heq]
      rfl
    have h2 : ¬(3 ≤ t.length ∧ t.take 3 = MARKER) := fun hand => ht hand.2
    unfold normalize_fragment
    rw [if_neg h1, if_neg h2]

/-- Claim C8, witnessed on `"▁ello"` (space plus remainder) and `"hi"`
(unchanged). -/
theorem normalize_fragment_cases_witness :
    (normalize_fragment (MARKER ++ [101, 108, 108, 111])
        = 32 :: [101, 108, 108, 111])
    ∧ (normalize_fragment [104, 105] = [104, 105]) :=
  ⟨normalize_fragment_cases.2.1 [101, 108, 108, 111],
    normalize_fragment_cases.2.2 [104, 105] (by decide)⟩

/-- Claim C9 counterexample: with `threadHint = 0` (unspecified) the code
uses the fixed default 8, which differs from the hardware concurrency the
claim prescribes on a machine with 4 hardware threads; `llamaCreate` never
queries hardware concurrency. -/
theorem thread_default_not_hardware :
    (clampThreads 0 = 8) ∧ (spec_default_threads 4 = 4)
    ∧ (clampThreads 0 ≠ spec_default_threads 4) := by decide

/-- Claim C9 amended: the thread count is clamped into `[6, 8]` — hence at
least 1 for every hint — and a non-positive (unspecified) hint yields the
fixed default 8, not the machine's hardware concurrency. -/
theorem clampThreads_range (hint : Int) :
    (1 ≤ clampThreads hint) ∧ (6 ≤ clampThreads hint)
    ∧ (clampThreads hint ≤ 8) ∧ (hint ≤ 0 → clampThreads hint = 8) := by
  unfold clampThreads
  split <;> omega

/-- Claim C9 amended, witnessed at hint `-3`. -/
theorem clampThreads_range_witness :
    (1 ≤ clampThreads (-3)) ∧ (clampThreads (-3) = 8) :=
  ⟨(clampThreads_range (-3)).1, (clampThreads_range (-3)).2.2.2 (by decide)⟩

/-- Claim C10: both `llamaGenerate` and `llamaGenerateStream` clear the KV
cache as their very first backend action, before tokenizing — and hence
before any prefill decode — for every backend, vocabulary, consumer,
prompt and budget, even if `llamaKvCacheClear` was never called between
generation calls. -/
theorem kv_cache_cleared_first (B : Backend) (V : Vocab) (S : StreamOracle)
    (prompt : Bytes) (m : Nat) :
    ((generate B V prompt m).events.head? = some BEvent.kvClear)
    ∧ ((generate B V prompt m).events.tail.head?
        = some (BEvent.tokenizeEv prompt))
    ∧ ((generateStream B V S prompt m).events.head? = some BEvent.kvClear)
    ∧ ((generateStream B V S prompt m).events.tail.head?
        = some (BEvent.tokenizeEv prompt)) :=
  ⟨rfl, rfl, rfl, rfl⟩

end LlamaJni
